import Mathlib

/-!
Shallow embedding of the homework chat bot (src/main.py) for checking the
specification claims. Strings are modelled as lists of Unicode code points
(List Nat). Python dicts are modelled as insertion-ordered association
lists with unique keys; dictInsert overwrites in place, dictRemove deletes.
The fixed regular expressions of find_subject_in_message are modelled by a
small backtracking matcher over a datatype of the pattern elements that
actually occur (literals, a two-way alternation of literals, an optional
character, whitespace classes and a final greedy dot-plus capture), with
the exact leftmost, greedy, depth-first ordering of the Python re engine.
-/

/-- Code points of a string literal. -/
def cp (s : String) : List Nat := s.data.map (fun c => c.toNat)

/-- Whitespace test used by Python str.strip, str.split and the regex class
backslash-s: ASCII whitespace, the separator controls 28-31 and 133, and the
Unicode space code points. -/
def isSpaceCp (n : Nat) : Bool :=
  n == 32 || (9 ≤ n && n ≤ 13) || (28 ≤ n && n ≤ 31) || n == 133 ||
  n == 160 || n == 5760 || (8192 ≤ n && n ≤ 8202) || n == 8232 ||
  n == 8233 || n == 8239 || n == 8287 || n == 12288

/-- Word-character test of the regex class backslash-w (with the explicit
Cyrillic range of normalize_word), restricted to the alphabets the program
processes: ASCII digits, ASCII letters, underscore and the Cyrillic block. -/
def isWordCp (n : Nat) : Bool :=
  (48 ≤ n && n ≤ 57) || (65 ≤ n && n ≤ 90) || (97 ≤ n && n ≤ 122) ||
  n == 95 || (1024 ≤ n && n ≤ 1279)

/-- Python str.lower on one code point, for the alphabets the program
processes: ASCII A-Z, Cyrillic 0x410-0x42F and 0x400-0x40F. -/
def lowerCp (n : Nat) : Nat :=
  if 65 ≤ n ∧ n ≤ 90 then n + 32
  else if 1040 ≤ n ∧ n ≤ 1071 then n + 32
  else if 1024 ≤ n ∧ n ≤ 1039 then n + 80
  else n

/-- Python str.lower on a string. -/
def pyLower (l : List Nat) : List Nat := l.map lowerCp

/-- Python str.strip with no argument: drop leading and trailing whitespace. -/
def pyStrip (l : List Nat) : List Nat :=
  ((l.dropWhile (fun c => isSpaceCp c)).reverse.dropWhile (fun c => isSpaceCp c)).reverse

/-- Python expression block.split()[0]: the first whitespace-delimited word,
with none modelling the IndexError raised when the string has no word. -/
def pyFirstWord (l : List Nat) : Option (List Nat) :=
  match l.dropWhile (fun c => isSpaceCp c) with
  | [] => none
  | c :: s => some ((c :: s).takeWhile (fun x => !(isSpaceCp x)))

/-- Python text.split(sep, 1): the part before the first separator, and the
part after it when the separator occurs. -/
def pySplitOnce (sep : Nat) : List Nat → List Nat × Option (List Nat)
  | [] => ([], none)
  | c :: s =>
    if c = sep then ([], some s)
    else
      let r := pySplitOnce sep s
      (c :: r.1, r.2)

/-- Python int() on a decimal string: surrounding whitespace stripped,
optional sign, at least one digit (digit-group underscores are not used by
this program and are not modelled). -/
def parseDigitsAux : List Nat → Nat → Option Nat
  | [], acc => some acc
  | c :: s, acc =>
    if 48 ≤ c ∧ c ≤ 57 then parseDigitsAux s (acc * 10 + (c - 48)) else none

/-- Parse a nonempty all-digit string. -/
def parseDigits : List Nat → Option Nat
  | [] => none
  | c :: s => parseDigitsAux (c :: s) 0

/-- Python int() applied to a string. -/
def pyParseInt (l : List Nat) : Option Int :=
  match pyStrip l with
  | 45 :: ds => (parseDigits ds).map (fun n => -(n : Int))
  | 43 :: ds => (parseDigits ds).map (fun n => (n : Int))
  | ds => (parseDigits ds).map (fun n => (n : Int))

/-- Decimal digits of a natural number, as Python str(). The recursion is
fuelled so that the definition reduces in the kernel. -/
def natStrAux : Nat → Nat → List Nat
  | 0, _ => []
  | fuel + 1, n => if n < 10 then [48 + n] else natStrAux fuel (n / 10) ++ [48 + n % 10]

/-- Python str() of a natural number. -/
def natStr (n : Nat) : List Nat := natStrAux (n + 1) n

/-- Python str() of an integer. -/
def intStr (i : Int) : List Nat :=
  if i < 0 then 45 :: natStr i.natAbs else natStr i.natAbs

/-- Two-digit zero-padded field of strftime. -/
def pad2 (n : Nat) : List Nat := if n < 10 then [48, 48 + n] else natStr n

/-- Lookup in a Python dict modelled as an association list. -/
def dictFind {α β : Type} [BEq α] (m : List (α × β)) (k : α) : Option β :=
  (m.find? (fun p => p.1 == k)).map (fun p => p.2)

/-- Python dict assignment d[k] = v: overwrite in place when the key is
present, append otherwise (insertion order preserved). -/
def dictInsert {α β : Type} [BEq α] (m : List (α × β)) (k : α) (v : β) :
    List (α × β) :=
  if m.any (fun p => p.1 == k) then m.map (fun p => if p.1 == k then (k, v) else p)
  else m ++ [(k, v)]

/-- Python del d[k] (tolerating an absent key, as the call sites guard). -/
def dictRemove {α β : Type} [BEq α] (m : List (α × β)) (k : α) : List (α × β) :=
  m.filter (fun p => !(p.1 == k))

/-- Python set.add on a set modelled as a duplicate-free list. -/
def setAdd (l : List Int) (u : Int) : List Int := if u ∈ l then l else l ++ [u]

/-- One stored homework entry: value of board_data, the JSON object with the
text and the optional photo id. -/
structure Entry where
  text : List Nat
  photo_id : Option (List Nat)
deriving DecidableEq

/-- The two live phases of the per-user add-homework conversation. -/
inductive Phase where
  | waitingForSubject
  | waitingForHomeworkDetails
deriving DecidableEq

/-- One value of user_states: the phase, the pending subject (set when
advancing to the details phase) and the last bot prompt message id. -/
structure ConvState where
  phase : Phase
  subject : Option (List Nat)
  botPromptMessageId : Option Nat
deriving DecidableEq

/-- The process-wide mutable state: board_data, muted_users, user_states. -/
structure BotState where
  board : List (List Nat × Entry)
  muted : List Int
  states : List (Int × ConvState)
deriving DecidableEq

/-- The allow-listed chat identifiers (TELEGRAM_CHAT_ID in the source). -/
def TELEGRAM_CHAT_ID : List Int :=
  [-1002415770314, -1002425817720, 6066445210, -1002362627260]

/-- The administrator identifiers (ADMIN_ID in the source). -/
def ADMIN_ID : List Int := [6066445210]

/-- The debug chat identifier (DEBUG_CHAT_ID in the source). -/
def DEBUG_CHAT_ID : Int := -1002425817720

/-- The elements occurring in the six fixed patterns of
find_subject_in_message: a literal, an alternation of two literals, an
optional single character, one whitespace, one-or-more whitespace, and the
final greedy dot-plus capture group. -/
inductive RElem where
  | lit (w : List Nat)
  | alt (a b : List Nat)
  | optChar (c : Nat)
  | wsOne
  | wsPlus
  | cap
deriving DecidableEq

/-- Backtracking match of a pattern at the start of a string, returning the
text captured by the final dot-plus group. Alternatives are tried in the
depth-first order of the Python re engine: literal alternation left first,
greedy whitespace longest first, optional character consumed first; the
final capture takes the maximal run of characters other than the newline
and must be nonempty. -/
def matchSeq : List RElem → List Nat → Option (List Nat)
  | [], _ => none
  | RElem.cap :: _, s =>
    let run := s.takeWhile (fun c => !(c == 10))
    if run.isEmpty then none else some run
  | RElem.lit w :: rest, s =>
    if w.isPrefixOf s then matchSeq rest (s.drop w.length) else none
  | RElem.alt a b :: rest, s =>
    match (if a.isPrefixOf s then matchSeq rest (s.drop a.length) else none) with
    | some r => some r
    | none => if b.isPrefixOf s then matchSeq rest (s.drop b.length) else none
  | RElem.optChar c :: rest, s =>
    match s with
    | [] => matchSeq rest []
    | x :: s2 =>
      if x = c then
        match matchSeq rest s2 with
        | some r => some r
        | none => matchSeq rest (x :: s2)
      else matchSeq rest (x :: s2)
  | RElem.wsOne :: rest, s =>
    match s with
    | [] => none
    | x :: s2 => if isSpaceCp x then matchSeq rest s2 else none
  | RElem.wsPlus :: rest, s =>
    let run := (s.takeWhile (fun c => isSpaceCp c)).length
    if run = 0 then none
    else (List.range run).findSome? (fun i => matchSeq rest (s.drop (run - i)))

/-- Python re.search: try a match at every position from the left,
returning the first success. -/
def reSearch (p : List RElem) : List Nat → Option (List Nat)
  | [] => matchSeq p []
  | c :: s =>
    match matchSeq p (c :: s) with
    | some r => some r
    | none => reSearch p s

/-- Pattern (что задали или по ...) with the alternation group. -/
def pattern1 : List RElem :=
  [RElem.lit (cp ("что")), RElem.wsPlus, RElem.alt (cp ("задали")) (cp ("по")),
   RElem.wsPlus, RElem.cap]

/-- Pattern (что по ...). -/
def pattern2 : List RElem :=
  [RElem.lit (cp ("что")), RElem.wsPlus, RElem.lit (cp ("по")), RElem.wsPlus, RElem.cap]

/-- Pattern (что задали по ...). -/
def pattern3 : List RElem :=
  [RElem.lit (cp ("что")), RElem.wsPlus, RElem.lit (cp ("задали")), RElem.wsPlus,
   RElem.lit (cp ("по")), RElem.wsPlus, RElem.cap]

/-- Pattern (какое дз по ...), with the letter з (code point 1079) optional. -/
def pattern4 : List RElem :=
  [RElem.lit (cp ("какое")), RElem.wsPlus, RElem.lit (cp ("д")), RElem.optChar 1079,
   RElem.wsPlus, RElem.lit (cp ("по")), RElem.wsPlus, RElem.cap]

/-- Pattern (дз по ...), with the letter з optional. -/
def pattern5 : List RElem :=
  [RElem.lit (cp ("д")), RElem.optChar 1079, RElem.wsPlus, RElem.lit (cp ("по")),
   RElem.wsPlus, RElem.cap]

/-- Pattern (что po ...) with the transliterated Latin po and single
whitespace elements. -/
def pattern6 : List RElem :=
  [RElem.lit (cp ("что")), RElem.wsOne, RElem.lit (cp ("po")), RElem.wsOne, RElem.cap]

/-- The pattern list of find_subject_in_message, in source order. -/
def patterns : List (List RElem) :=
  [pattern1, pattern2, pattern3, pattern4, pattern5, pattern6]

/-- One step of build_subject_alias_map: register for one board key its full
lowered form, the first four characters of the space-free form when at least
two long, the space-free form when different from the key, and the first four
characters of the space-free form again. -/
def alias_step (am : List (List Nat × List Nat)) (p : List Nat × Entry) :
    List (List Nat × List Nat) :=
  if p.1 = [] then am
  else
    let key := pyLower p.1
    let am1 := dictInsert am key key
    let short := (key.filter (fun c => !(c == 32))).take 4
    let am2 := if 2 ≤ short.length then dictInsert am1 short key else am1
    let nospace := key.filter (fun c => !(c == 32))
    let am3 := if nospace ≠ [] ∧ nospace ≠ key then dictInsert am2 nospace key else am2
    let am4 := if 2 ≤ nospace.length then dictInsert am3 (nospace.take 4) key else am3
    am4

/-- build_subject_alias_map: fold alias_step over the board in insertion
order (later registrations of an identical alias overwrite earlier ones). -/
def build_subject_alias_map (board : List (List Nat × Entry)) :
    List (List Nat × List Nat) :=
  board.foldl alias_step []

/-- normalize_word: lower the word, delete the characters outside the word
class, strip. -/
def normalize_word (w : List Nat) : List Nat :=
  pyStrip ((pyLower w).filter (fun c => isWordCp c))

/-- Deletion of the double and single quote characters, the two replace
calls applied to the subject block. -/
def stripQuotes (l : List Nat) : List Nat :=
  l.filter (fun c => !(c == 34 || c == 39))

/-- One candidate check of the inner loop: empty candidates are skipped,
direct alias membership first, then the first four characters of the
space-free candidate. -/
def lookupCand (am : List (List Nat × List Nat)) (cand : List Nat) :
    Option (List Nat) :=
  if cand = [] then none
  else
    match dictFind am cand with
    | some k => some k
    | none => dictFind am ((cand.filter (fun c => !(c == 32))).take 4)

/-- Processing of one pattern inside find_subject_in_message: search, take
the captured subject block, strip it, build the four candidate strings and
return the first alias hit. The error value models the IndexError raised by
block.split()[0] when the stripped block has no word. -/
def patternStep (am : List (List Nat × List Nat)) (tn : List Nat)
    (pat : List RElem) : Except Unit (Option (List Nat)) :=
  match reSearch pat tn with
  | none => Except.ok none
  | some block0 =>
    if block0 = [] then Except.ok none
    else
      let block := pyStrip block0
      match pyFirstWord block with
      | none => Except.error ()
      | some fw =>
        let candidates :=
          [normalize_word fw, normalize_word block,
           normalize_word (stripQuotes block), pyStrip (stripQuotes block)]
        Except.ok (candidates.findSome? (lookupCand am))

/-- The pattern loop of find_subject_in_message: a pattern whose candidates
all fail does not stop the loop, the next pattern is consulted. -/
def findSubjectGo (am : List (List Nat × List Nat)) (tn : List Nat) :
    List (List RElem) → Except Unit (Option (List Nat))
  | [] => Except.ok none
  | p :: ps =>
    match patternStep am tn p with
    | Except.error e => Except.error e
    | Except.ok (some k) => Except.ok (some k)
    | Except.ok none => findSubjectGo am tn ps

/-- find_subject_in_message: empty text resolves to none, otherwise the text
is lowered and stripped, the alias map is rebuilt from the current board and
the patterns are tried in order. -/
def find_subject_in_message (board : List (List Nat × Entry)) (text : List Nat) :
    Except Unit (Option (List Nat)) :=
  if text = [] then Except.ok none
  else findSubjectGo (build_subject_alias_map board) (pyStrip (pyLower text)) patterns

/-- Russian month name in the genitive, as the months_ru table. -/
def monthsRu (m : Nat) : List Nat :=
  if m = 1 then cp ("января") else if m = 2 then cp ("февраля")
  else if m = 3 then cp ("марта") else if m = 4 then cp ("апреля")
  else if m = 5 then cp ("мая") else if m = 6 then cp ("июня")
  else if m = 7 then cp ("июля") else if m = 8 then cp ("августа")
  else if m = 9 then cp ("сентября") else if m = 10 then cp ("октября")
  else if m = 11 then cp ("ноября") else cp ("декабря")

/-- Proleptic Gregorian date from a day count since the epoch, the civil
date computation performed by datetime.fromtimestamp for timestamps at or
after the epoch. Returns year, month, day. -/
def civilFromDays (z0 : Nat) : Nat × Nat × Nat :=
  let z := z0 + 719468
  let era := z / 146097
  let doe := z % 146097
  let yoe := (doe - doe / 1460 + doe / 36524 - doe / 146096) / 365
  let y := yoe + era * 400
  let doy := doe - (365 * yoe + yoe / 4 - yoe / 100)
  let mp := (5 * doy + 2) / 153
  let d := doy - (153 * mp + 2) / 5 + 1
  let m := if mp < 10 then mp + 3 else mp - 9
  (if m ≤ 2 then y + 1 else y, m, d)

/-- The formatted date of _save_and_confirm_homework: the message timestamp
shifted to GMT+4, rendered as day, Russian month and HH:MM. -/
def formattedDate (ts : Nat) : List Nat :=
  let shifted := ts + 4 * 3600
  let c := civilFromDays (shifted / 86400)
  let secs := shifted % 86400
  natStr c.2.2 ++ cp (" ") ++ monthsRu c.2.1 ++ cp (" в ") ++
    pad2 (secs / 3600) ++ cp (":") ++ pad2 (secs % 3600 / 60)

/-- The sender reference rendered into the stored text: the at-username when
present, otherwise the numeric user id. -/
structure UserRef where
  id : Int
  username : Option (List Nat)
deriving DecidableEq

/-- Rendered user mention. -/
def userMention (u : UserRef) : List Nat :=
  match u.username with
  | some un => 64 :: un
  | none => cp ("User ID: ") ++ intStr u.id

/-- The storing part of _save_and_confirm_homework: build the full value
text with the date and author suffix, lower the subject for the key and
overwrite the board entry. -/
def save_and_confirm_homework (bs : BotState) (subject hw : List Nat)
    (fid : Option (List Nat)) (msgDate : Nat) (user : UserRef) : BotState :=
  let fullText := hw ++ cp ("\n\n(Добавлено ") ++ formattedDate msgDate ++
    cp (" пользователем ") ++ userMention user ++ cp (")")
  { bs with board := dictInsert bs.board (pyLower subject) ⟨fullText, fid⟩ }

/-- Replies the modelled handlers can produce. -/
inductive Reply where
  | deniedChat
  | deniedMuted
  | emptySubject
  | promptDetails (subject : List Nat)
  | emptyDetails
  | missingSubject
  | saved (subject : List Nat)
  | photoUsage
  | silent
  | formatErr
  | quoteErr
  | emptyKey
  | emptyValue
  | deleted (key : List Nat)
  | keyNotFound (key : List Nat)
  | notAdmin
  | usage
  | badId
  | mutedOk (uid : Int)
  | unmutedOk (uid : Int)
deriving DecidableEq

/-- The set_info callback branch: any previous state of the user is
discarded and a fresh waiting-for-subject state with the new prompt id is
recorded. -/
def handleCallbackSetInfo (bs : BotState) (userId : Int) (newPromptId : Nat) :
    BotState :=
  let st : ConvState := ⟨Phase.waitingForSubject, none, some newPromptId⟩
  { bs with states := dictInsert (dictRemove bs.states userId) userId st }

/-- handle_subject_input: chat allow-list check, mute check (each tearing
the state down on failure), empty-subject validation keeping the state, and
otherwise the advance to the details phase with the stripped subject and the
new prompt id recorded. The handler is only dispatched while the user state
is waiting_for_subject. -/
def handle_subject_input (bs : BotState) (chatId userId : Int) (text : List Nat)
    (newPromptId : Nat) : BotState × Reply :=
  if chatId ∉ TELEGRAM_CHAT_ID ∧ chatId ≠ DEBUG_CHAT_ID then
    ({ bs with states := dictRemove bs.states userId }, Reply.deniedChat)
  else if userId ∈ bs.muted then
    ({ bs with states := dictRemove bs.states userId }, Reply.deniedMuted)
  else
    let subject := pyStrip text
    if subject = [] then (bs, Reply.emptySubject)
    else
      let st : ConvState := ⟨Phase.waitingForHomeworkDetails, some subject, some newPromptId⟩
      ({ bs with states := dictInsert bs.states userId st }, Reply.promptDetails subject)

/-- Content delivered to the details handler: a text message, or a photo
with an optional caption and an optional file id. -/
inductive HwContent where
  | hwText (t : List Nat)
  | hwPhoto (caption : Option (List Nat)) (fileId : Option (List Nat))
deriving DecidableEq

/-- handle_homework_details_input: chat and mute checks with teardown, the
stored pending subject fetched from the state, the empty-content validation
keeping the state, the photo-only placeholder text, then the save and the
state removal. -/
def handle_homework_details_input (bs : BotState) (chatId userId : Int)
    (content : HwContent) (msgDate : Nat) (user : UserRef) : BotState × Reply :=
  if chatId ∉ TELEGRAM_CHAT_ID ∧ chatId ≠ DEBUG_CHAT_ID then
    ({ bs with states := dictRemove bs.states userId }, Reply.deniedChat)
  else if userId ∈ bs.muted then
    ({ bs with states := dictRemove bs.states userId }, Reply.deniedMuted)
  else
    match (dictFind bs.states userId).bind (fun st => st.subject) with
    | none => ({ bs with states := dictRemove bs.states userId }, Reply.missingSubject)
    | some subject =>
      let hw := match content with
        | HwContent.hwText t => pyStrip t
        | HwContent.hwPhoto cap _ =>
          match cap with
          | some c => pyStrip c
          | none => []
      let fid := match content with
        | HwContent.hwText _ => none
        | HwContent.hwPhoto _ f => f
      if hw = [] ∧ fid = none then (bs, Reply.emptyDetails)
      else
        let hw2 := if hw = [] ∧ fid.isSome then cp ("(см. фото)") else hw
        let bs2 := save_and_confirm_homework bs subject hw2 fid msgDate user
        ({ bs2 with states := dictRemove bs2.states userId }, Reply.saved subject)

/-- Commit step of the set command once the subject and the value are
parsed: empty-subject and empty-value validation, then the save. -/
def setCommit (bs : BotState) (subject value : List Nat) (fid : Option (List Nat))
    (msgDate : Nat) (user : UserRef) : BotState × Reply :=
  if subject = [] then (bs, Reply.emptyKey)
  else if value = [] ∧ fid = none then (bs, Reply.emptyValue)
  else (save_and_confirm_homework bs subject value fid msgDate user, Reply.saved subject)

/-- Argument parsing of the set command: the slash-set prefix re-check, the
split after the command word, then either the quoted multi-word subject or
the first word as the subject. -/
def setParse (bs : BotState) (commandText : List Nat) (fid : Option (List Nat))
    (msgDate : Nat) (user : UserRef) : BotState × Reply :=
  if ¬ (cp ("/set ")).isPrefixOf (pyLower commandText) then (bs, Reply.silent)
  else
    let parts := pySplitOnce 32 commandText
    match parts.2 with
    | none => (bs, Reply.formatErr)
    | some tail =>
      if pyStrip tail = [] then (bs, Reply.formatErr)
      else
        let argsLine := pyStrip tail
        match argsLine with
        | 34 :: rest =>
          if 34 ∈ rest then
            let subject := pyStrip (rest.takeWhile (fun c => !(c == 34)))
            let value := pyStrip ((rest.dropWhile (fun c => !(c == 34))).drop 1)
            setCommit bs subject value fid msgDate user
          else (bs, Reply.quoteErr)
        | _ =>
          let sp := pySplitOnce 32 argsLine
          let subject := pyStrip sp.1
          let value := match sp.2 with
            | some r => pyStrip r
            | none => []
          setCommit bs subject value fid msgDate user

/-- Content delivered to the set command handler. -/
inductive SetContent where
  | scText (t : List Nat)
  | scPhoto (caption : Option (List Nat)) (fileId : Option (List Nat))
deriving DecidableEq

/-- set_homework: mute check, chat allow-list check, then for a photo the
caption must carry the slash-set command (otherwise the usage reply), and
the parsed command is committed. -/
def set_homework (bs : BotState) (chatId userId : Int) (content : SetContent)
    (msgDate : Nat) (user : UserRef) : BotState × Reply :=
  if userId ∈ bs.muted then (bs, Reply.deniedMuted)
  else if chatId ∉ TELEGRAM_CHAT_ID ∧ chatId ≠ DEBUG_CHAT_ID then (bs, Reply.deniedChat)
  else
    match content with
    | SetContent.scPhoto cap fid =>
      match cap with
      | some c =>
        if c ≠ [] ∧ (cp ("/set ")).isPrefixOf (pyLower c) then
          setParse bs (pyStrip c) fid msgDate user
        else (bs, Reply.photoUsage)
      | none => (bs, Reply.photoUsage)
    | SetContent.scText t => setParse bs (pyStrip t) none msgDate user

/-- Key extraction of the delete command: strip, remove the surrounding
double quotes when both present, lower. -/
def delKey (raw : List Nat) : List Nat :=
  if raw.head? = some 34 ∧ raw.getLast? = some 34 then
    pyLower (pyStrip ((raw.drop 1).dropLast))
  else pyLower raw

/-- delete_board: mute check, chat allow-list check, the split after the
command word, the key extraction with the empty-key validation, then the
removal with persistence exactly when the key existed. The Boolean result
records whether save_data was called. -/
def delete_board (bs : BotState) (chatId userId : Int) (msgText : List Nat) :
    BotState × Reply × Bool :=
  if userId ∈ bs.muted then (bs, Reply.deniedMuted, false)
  else if chatId ∉ TELEGRAM_CHAT_ID ∧ chatId ≠ DEBUG_CHAT_ID then
    (bs, Reply.deniedChat, false)
  else
    let parts := pySplitOnce 32 msgText
    match parts.2 with
    | none => (bs, Reply.formatErr, false)
    | some tail =>
      if pyStrip tail = [] then (bs, Reply.formatErr, false)
      else
        let key := delKey (pyStrip tail)
        if key = [] then (bs, Reply.emptyKey, false)
        else if (dictFind bs.board key).isSome then
          ({ bs with board := dictRemove bs.board key }, Reply.deleted key, true)
        else (bs, Reply.keyNotFound key, false)

/-- mute_user: administrator check, the split after the command word, the
integer parse, then set.add and persistence. -/
def mute_user (muted : List Int) (callerId : Int) (msgText : List Nat) :
    List Int × Reply :=
  if callerId ∉ ADMIN_ID then (muted, Reply.notAdmin)
  else
    match (pySplitOnce 32 msgText).2 with
    | none => (muted, Reply.usage)
    | some tail =>
      match pyParseInt tail with
      | none => (muted, Reply.badId)
      | some uid => (setAdd muted uid, Reply.mutedOk uid)

/-- unmute_user: administrator check, the split, the integer parse, then
set.discard and persistence. -/
def unmute_user (muted : List Int) (callerId : Int) (msgText : List Nat) :
    List Int × Reply :=
  if callerId ∉ ADMIN_ID then (muted, Reply.notAdmin)
  else
    match (pySplitOnce 32 msgText).2 with
    | none => (muted, Reply.usage)
    | some tail =>
      match pyParseInt tail with
      | none => (muted, Reply.badId)
      | some uid => (muted.filter (fun x => !(x == uid)), Reply.unmutedOk uid)

/-- handle_general_queries, the implicit free-text query path: empty and
slash-prefixed texts are ignored, the resolver is consulted (its IndexError
is swallowed by the surrounding try), and an answer is produced exactly when
the resolved key is present in the board. The muted set and the sender are
parameters of the event but the body never reads them: the source contains
only a comment about muted users at this point, no check. -/
def handle_general_queries (board : List (List Nat × Entry)) (muted : List Int)
    (userId : Int) (text : List Nat) : Option (List Nat × Entry) :=
  let t := pyStrip text
  if t = [] then none
  else if t.head? = some 47 then none
  else
    match find_subject_in_message board t with
    | Except.error _ => none
    | Except.ok none => none
    | Except.ok (some key) =>
      match dictFind board key with
      | none => none
      | some hw => some (key, hw)

/-- Inbound message content for the dispatch model. -/
inductive MsgContent where
  | textMsg (t : List Nat)
  | photoMsg (caption : Option (List Nat))
  | stickerMsg (setName : List Nat)
deriving DecidableEq

/-- The handler a message is routed to. -/
inductive HandlerPath where
  | stickerH
  | msguH
  | subjectInputH
  | detailsInputH
  | setH
  | delH
  | startH
  | muteH
  | restartH
  | unmuteH
  | generalH
  | ignoredH
deriving DecidableEq

/-- The command extraction of the bot library: for a slash-prefixed text,
the first whitespace-delimited word, cut at the at sign, without the slash. -/
def extractCommand (t : List Nat) : Option (List Nat) :=
  match t with
  | 47 :: _ =>
    match pyFirstWord t with
    | none => none
    | some w => some ((w.takeWhile (fun c => !(c == 64))).drop 1)
  | _ => none

/-- The phase recorded for a user, as the state lookups of the handler
filters. -/
def stateOf (states : List (Int × ConvState)) (u : Int) : Option Phase :=
  (dictFind states u).map (fun st => st.phase)

/-- The dispatch of one inbound message: the bot library tries the handlers
in registration order and the first whose filters pass wins. Registration
order in the source: sticker handler, msgu command, subject-input state
handler, details-input state handler, set, del, start, mute, restart,
unmute commands, then the catch-all text handler. The library command
filter requires text content, so a command never fires on a photo caption
at dispatch time. -/
def dispatch (states : List (Int × ConvState)) (userId : Int)
    (content : MsgContent) : HandlerPath :=
  match content with
  | MsgContent.stickerMsg _ => HandlerPath.stickerH
  | MsgContent.photoMsg _ =>
    if stateOf states userId = some Phase.waitingForHomeworkDetails then
      HandlerPath.detailsInputH
    else HandlerPath.ignoredH
  | MsgContent.textMsg t =>
    if extractCommand t = some (cp ("msgu")) then HandlerPath.msguH
    else if stateOf states userId = some Phase.waitingForSubject then
      HandlerPath.subjectInputH
    else if stateOf states userId = some Phase.waitingForHomeworkDetails then
      HandlerPath.detailsInputH
    else if extractCommand t = some (cp ("set")) then HandlerPath.setH
    else if extractCommand t = some (cp ("del")) then HandlerPath.delH
    else if extractCommand t = some (cp ("start")) then HandlerPath.startH
    else if extractCommand t = some (cp ("mute")) then HandlerPath.muteH
    else if extractCommand t = some (cp ("restart")) then HandlerPath.restartH
    else if extractCommand t = some (cp ("unmute")) then HandlerPath.unmuteH
    else HandlerPath.generalH

/-- Decidable equality for Except results of the resolver. -/
instance exceptDecEq {ε α : Type} [DecidableEq ε] [DecidableEq α] :
    DecidableEq (Except ε α) := fun x y =>
  match x, y with
  | Except.ok a, Except.ok b =>
    if h : a = b then isTrue (by rw [h]) else isFalse (fun hc => h (Except.ok.inj hc))
  | Except.ok _, Except.error _ => isFalse (fun hc => Except.noConfusion hc)
  | Except.error _, Except.ok _ => isFalse (fun hc => Except.noConfusion hc)
  | Except.error a, Except.error b =>
    if h : a = b then isTrue (by rw [h]) else isFalse (fun hc => h (Except.error.inj hc))

theorem lowerCp_lowerCp (n : Nat) : lowerCp (lowerCp n) = lowerCp n := by
  unfold lowerCp
  split_ifs <;> omega

theorem pyLower_idem (l : List Nat) : pyLower (pyLower l) = pyLower l := by
  induction l with
  | nil => rfl
  | cons c s ih =>
    show lowerCp (lowerCp c) :: pyLower (pyLower s) = lowerCp c :: pyLower s
    rw [lowerCp_lowerCp, ih]

theorem isSpaceCp_lowerCp (n : Nat) : isSpaceCp (lowerCp n) = isSpaceCp n := by
  unfold lowerCp
  split_ifs with h1 h2 h3
  · rw [Bool.eq_iff_iff]
    simp only [isSpaceCp, Bool.or_eq_true, Bool.and_eq_true, beq_iff_eq,
      decide_eq_true_eq]
    omega
  · rw [Bool.eq_iff_iff]
    simp only [isSpaceCp, Bool.or_eq_true, Bool.and_eq_true, beq_iff_eq,
      decide_eq_true_eq]
    omega
  · rw [Bool.eq_iff_iff]
    simp only [isSpaceCp, Bool.or_eq_true, Bool.and_eq_true, beq_iff_eq,
      decide_eq_true_eq]
    omega
  · rfl

theorem head?_dropWhile_not (p : Nat → Bool) (l : List Nat) (c : Nat)
    (h : (l.dropWhile p).head? = some c) : p c = false := by
  induction l with
  | nil => simp at h
  | cons a s ih =>
    rw [List.dropWhile_cons] at h
    by_cases ha : p a
    · rw [if_pos ha] at h
      exact ih h
    · rw [if_neg ha] at h
      simp only [List.head?_cons, Option.some.injEq] at h
      rw [← h]
      exact Bool.not_eq_true _ ▸ (by simpa using ha)

theorem dropWhile_eq_self_of_head (p : Nat → Bool) (l : List Nat)
    (h : ∀ c, l.head? = some c → p c = false) : l.dropWhile p = l := by
  cases l with
  | nil => rfl
  | cons a s =>
    rw [List.dropWhile_cons, if_neg]
    rw [h a rfl]
    simp

theorem getLast?_dropWhile (p : Nat → Bool) (l : List Nat) :
    l.dropWhile p = [] ∨ (l.dropWhile p).getLast? = l.getLast? := by
  induction l with
  | nil => exact Or.inl rfl
  | cons c s ih =>
    rw [List.dropWhile_cons]
    by_cases hc : p c
    · rw [if_pos hc]
      cases hd : s.dropWhile p with
      | nil => exact Or.inl rfl
      | cons a t =>
        rcases ih with h | h
        · rw [hd] at h
          simp at h
        · right
          rw [hd] at h
          rw [h]
          have hs : s ≠ [] := by
            intro he
            rw [he] at hd
            simp at hd
          cases s with
          | nil => exact absurd rfl hs
          | cons b u => rw [List.getLast?_cons_cons]
    · rw [if_neg hc]
      exact Or.inr rfl

theorem pyStrip_head (l : List Nat) (c : Nat) (h : (pyStrip l).head? = some c) :
    isSpaceCp c = false := by
  unfold pyStrip at h
  rw [List.head?_reverse] at h
  rcases getLast?_dropWhile (fun x => isSpaceCp x) ((l.dropWhile (fun x => isSpaceCp x)).reverse)
    with he | hg
  · rw [he] at h
    simp at h
  · rw [hg, List.getLast?_reverse] at h
    exact head?_dropWhile_not _ _ _ h

theorem pyStrip_last (l : List Nat) (c : Nat) (h : (pyStrip l).getLast? = some c) :
    isSpaceCp c = false := by
  unfold pyStrip at h
  rw [List.getLast?_reverse] at h
  exact head?_dropWhile_not _ _ _ h

theorem pyStrip_eq_self (l : List Nat)
    (h1 : ∀ c, l.head? = some c → isSpaceCp c = false)
    (h2 : ∀ c, l.getLast? = some c → isSpaceCp c = false) : pyStrip l = l := by
  unfold pyStrip
  rw [dropWhile_eq_self_of_head _ l h1]
  rw [dropWhile_eq_self_of_head _ l.reverse
    (fun c hc => h2 c (by rwa [List.head?_reverse] at hc))]
  exact List.reverse_reverse l

theorem pyStrip_idem (l : List Nat) : pyStrip (pyStrip l) = pyStrip l :=
  pyStrip_eq_self _ (pyStrip_head l) (pyStrip_last l)

theorem pyStrip_pyLower (l : List Nat) : pyStrip (pyLower l) = pyLower (pyStrip l) := by
  have hfun : ((fun c => isSpaceCp c) ∘ lowerCp) = (fun c => isSpaceCp c) :=
    funext fun n => isSpaceCp_lowerCp n
  unfold pyStrip pyLower
  rw [List.dropWhile_map, hfun, ← List.map_reverse, List.dropWhile_map, hfun,
    ← List.map_reverse]

theorem mem_dictInsert {α β : Type} [BEq α] {m : List (α × β)} {k : α} {v : β}
    {p : α × β} (h : p ∈ dictInsert m k v) : p ∈ m ∨ p = (k, v) := by
  unfold dictInsert at h
  split at h
  · obtain ⟨q, hq, hqe⟩ := List.mem_map.mp h
    by_cases hk : q.1 == k
    · rw [if_pos hk] at hqe
      exact Or.inr hqe.symm
    · rw [if_neg hk] at hqe
      exact Or.inl (hqe ▸ hq)
  · rcases List.mem_append.mp h with hm | hm
    · exact Or.inl hm
    · exact Or.inr (List.mem_singleton.mp hm)

theorem dictFind_some_mem {α β : Type} [BEq α] {m : List (α × β)} {k : α} {v : β}
    (h : dictFind m k = some v) : ∃ a, (a, v) ∈ m := by
  unfold dictFind at h
  obtain ⟨pr, hf, hv⟩ := Option.map_eq_some'.mp h
  exact ⟨pr.1, by rw [← hv]; exact List.mem_of_find?_eq_some hf⟩

theorem dictFind_isSome_of_mem {α β : Type} [BEq α] [LawfulBEq α]
    {m : List (α × β)} {k : α} {v : β} (h : (k, v) ∈ m) :
    (dictFind m k).isSome = true := by
  unfold dictFind
  cases hf : m.find? (fun p => p.1 == k) with
  | none =>
    have := List.find?_eq_none.mp hf (k, v) h
    simp at this
  | some pr => rfl

theorem dictFind_dictRemove_self {α β : Type} [BEq α] (m : List (α × β)) (k : α) :
    dictFind (dictRemove m k) k = none := by
  have h : List.find? (fun p => p.1 == k) (List.filter (fun p => !(p.1 == k)) m) = none := by
    rw [List.find?_eq_none]
    intro x hx
    have hx2 := (List.mem_filter.mp hx).2
    simp only [Bool.not_eq_true'] at hx2
    simp [hx2]
  unfold dictFind dictRemove
  rw [h]
  rfl

theorem dictFind_dictRemove_ne {α β : Type} [BEq α] [LawfulBEq α]
    (m : List (α × β)) (k k2 : α) (h : ¬ k2 = k) :
    dictFind (dictRemove m k) k2 = dictFind m k2 := by
  unfold dictFind dictRemove
  induction m with
  | nil => rfl
  | cons q m ih =>
    rw [List.filter_cons]
    by_cases hq : (q.1 == k) = true
    · rw [if_neg (by simp [hq])]
      have hq2 : (q.1 == k2) = false := by
        rw [eq_of_beq hq]
        exact beq_eq_false_iff_ne.mpr (fun he => h he.symm)
      simp only [List.find?_cons, hq2]
      exact ih
    · rw [if_pos (by simp [hq])]
      simp only [List.find?_cons]
      cases hq2 : (q.1 == k2) with
      | true => rfl
      | false => exact ih

/-- The Subject Store key invariant of the specification: lower-case,
trimmed, non-empty. -/
def goodKey (k : List Nat) : Prop := k ≠ [] ∧ pyLower k = k ∧ pyStrip k = k

instance (k : List Nat) : Decidable (goodKey k) := by
  unfold goodKey
  infer_instance

/-- The property maintained for pending subjects in conversation states:
non-empty and trimmed. -/
def subjOk : Option (List Nat) → Prop
  | none => True
  | some s => s ≠ [] ∧ pyStrip s = s

instance : (o : Option (List Nat)) → Decidable (subjOk o)
  | none => isTrue trivial
  | some s => inferInstanceAs (Decidable (s ≠ [] ∧ pyStrip s = s))

/-- The invariant of the mutable state: every board key is lower-case,
trimmed and non-empty, and every pending conversation subject is non-empty
and trimmed. -/
def StoreInv (bs : BotState) : Prop :=
  (∀ p ∈ bs.board, goodKey p.1) ∧ (∀ q ∈ bs.states, subjOk q.2.subject)

instance (bs : BotState) : Decidable (StoreInv bs) := by
  unfold StoreInv
  infer_instance

theorem goodKey_lower (s : List Nat) (h1 : s ≠ []) (h2 : pyStrip s = s) :
    goodKey (pyLower s) := by
  refine ⟨by simpa [pyLower] using h1, pyLower_idem s, ?_⟩
  rw [pyStrip_pyLower, h2]

theorem inv_states_remove (bs : BotState) (u : Int) (h : StoreInv bs) :
    StoreInv { bs with states := dictRemove bs.states u } := by
  refine ⟨h.1, fun q hq => h.2 q ?_⟩
  exact List.mem_of_mem_filter hq

theorem inv_states_insert (bs : BotState) (u : Int) (st : ConvState)
    (h : StoreInv bs) (hst : subjOk st.subject) :
    StoreInv { bs with states := dictInsert bs.states u st } := by
  refine ⟨h.1, fun q hq => ?_⟩
  rcases mem_dictInsert hq with hm | he
  · exact h.2 q hm
  · rw [he]
    exact hst

theorem inv_board_remove (bs : BotState) (k : List Nat) (h : StoreInv bs) :
    StoreInv { bs with board := dictRemove bs.board k } := by
  refine ⟨fun p hp => h.1 p (List.mem_of_mem_filter hp), h.2⟩

theorem inv_save (bs : BotState) (subject hw : List Nat) (fid : Option (List Nat))
    (d : Nat) (user : UserRef) (h1 : subject ≠ []) (h2 : pyStrip subject = subject)
    (h : StoreInv bs) :
    StoreInv (save_and_confirm_homework bs subject hw fid d user) := by
  refine ⟨fun p hp => ?_, h.2⟩
  rcases mem_dictInsert hp with hm | he
  · exact h.1 p hm
  · rw [he]
    exact goodKey_lower subject h1 h2

theorem mem_alias_step {am : List (List Nat × List Nat)} {p : List Nat × Entry}
    {pr : List Nat × List Nat} (h : pr ∈ alias_step am p) :
    pr ∈ am ∨ (p.1 ≠ [] ∧ pr.2 = pyLower p.1) := by
  unfold alias_step at h
  split at h
  · exact Or.inl h
  · rename_i hne
    have step : ∀ (m : List (List Nat × List Nat)) (a : List Nat),
        pr ∈ dictInsert m a (pyLower p.1) → pr ∈ m ∨ (p.1 ≠ [] ∧ pr.2 = pyLower p.1) :=
      fun m a hm => (mem_dictInsert hm).imp id (fun he => ⟨hne, by rw [he]⟩)
    simp only at h
    split at h
    · rcases step _ _ h with h3 | h3
      · split at h3
        · rcases step _ _ h3 with h2 | h2
          · split at h2
            · rcases step _ _ h2 with h1 | h1
              · exact (step _ _ h1).imp id id
              · exact Or.inr h1
            · exact (step _ _ h2).imp id id
          · exact Or.inr h2
        · split at h3
          · rcases step _ _ h3 with h2 | h2
            · exact (step _ _ h2).imp id id
            · exact Or.inr h2
          · exact (step _ _ h3).imp id id
      · exact Or.inr h3
    · split at h
      · rcases step _ _ h with h2 | h2
        · split at h2
          · rcases step _ _ h2 with h1 | h1
            · exact (step _ _ h1).imp id id
            · exact Or.inr h1
          · exact (step _ _ h2).imp id id
        · exact Or.inr h2
      · split at h
        · rcases step _ _ h with h2 | h2
          · exact (step _ _ h2).imp id id
          · exact Or.inr h2
        · exact (step _ _ h).imp id id

theorem mem_build_alias (board : List (List Nat × Entry))
    (pr : List Nat × List Nat) (h : pr ∈ build_subject_alias_map board) :
    ∃ q, q ∈ board ∧ q.1 ≠ [] ∧ pr.2 = pyLower q.1 := by
  have aux : ∀ (l : List (List Nat × Entry)) (am : List (List Nat × List Nat)),
      pr ∈ List.foldl alias_step am l →
      pr ∈ am ∨ ∃ q, q ∈ l ∧ q.1 ≠ [] ∧ pr.2 = pyLower q.1 := by
    intro l
    induction l with
    | nil => exact fun am hm => Or.inl hm
    | cons p l ih =>
      intro am hm
      rcases ih (alias_step am p) hm with h2 | ⟨q, hq, hne, he⟩
      · rcases mem_alias_step h2 with h3 | ⟨hne, he⟩
        · exact Or.inl h3
        · exact Or.inr ⟨p, List.mem_cons_self _ _, hne, he⟩
      · exact Or.inr ⟨q, List.mem_cons_of_mem _ hq, hne, he⟩
  rcases aux board [] h with hm | hq
  · cases hm
  · exact hq

theorem patternStep_of_search_none (am : List (List Nat × List Nat)) (tn : List Nat)
    (p : List RElem) (h : reSearch p tn = none) :
    patternStep am tn p = Except.ok none := by
  unfold patternStep
  rw [h]

theorem findSubjectGo_none (am : List (List Nat × List Nat)) (tn : List Nat)
    (ps : List (List RElem)) (h : ∀ p ∈ ps, reSearch p tn = none) :
    findSubjectGo am tn ps = Except.ok none := by
  induction ps with
  | nil => rfl
  | cons p ps ih =>
    unfold findSubjectGo
    rw [patternStep_of_search_none am tn p (h p (List.mem_cons_self _ _))]
    exact ih (fun q hq => h q (List.mem_cons_of_mem _ hq))

theorem findSubjectGo_some (am : List (List Nat × List Nat)) (tn : List Nat)
    (ps : List (List RElem)) (k : List Nat)
    (h : findSubjectGo am tn ps = Except.ok (some k)) :
    ∃ p, p ∈ ps ∧ patternStep am tn p = Except.ok (some k) := by
  induction ps with
  | nil => exact absurd h (by simp [findSubjectGo])
  | cons p ps ih =>
    unfold findSubjectGo at h
    cases hs : patternStep am tn p with
    | error e =>
      rw [hs] at h
      simp at h
    | ok o =>
      cases o with
      | none =>
        rw [hs] at h
        obtain ⟨q, hq, hq2⟩ := ih h
        exact ⟨q, List.mem_cons_of_mem _ hq, hq2⟩
      | some k2 =>
        rw [hs] at h
        have hk : k2 = k := by simpa using h
        exact ⟨p, List.mem_cons_self _ _, by rw [hs, hk]⟩

theorem patternStep_some_mem (am : List (List Nat × List Nat)) (tn : List Nat)
    (p : List RElem) (k : List Nat) (h : patternStep am tn p = Except.ok (some k)) :
    ∃ a, (a, k) ∈ am := by
  unfold patternStep at h
  cases hr : reSearch p tn with
  | none =>
    rw [hr] at h
    simp at h
  | some block0 =>
    rw [hr] at h
    dsimp only at h
    split at h
    · simp at h
    · cases hw : pyFirstWord (pyStrip block0) with
      | none =>
        rw [hw] at h
        simp at h
      | some fw =>
        rw [hw] at h
        dsimp only at h
        simp only [Except.ok.injEq] at h
        obtain ⟨c, _, hl⟩ := List.exists_of_findSome?_eq_some h
        unfold lookupCand at hl
        split at hl
        · simp at hl
        · cases hd : dictFind am c with
          | some k2 =>
            rw [hd] at hl
            have hk : k2 = k := by simpa using hl
            exact dictFind_some_mem (hk ▸ hd)
          | none =>
            rw [hd] at hl
            exact dictFind_some_mem hl

/-- C1: with the store holding exactly the keys математика and английский,
the resolver maps the query (что задали по математике) to математика, maps
(что по англ) to английский through the four-character alias англ, and
resolves (что задали по физике) to none. -/
theorem c1_resolver_examples :
    find_subject_in_message
        [(cp ("математика"), Entry.mk (cp ("стр 1")) none),
         (cp ("английский"), Entry.mk (cp ("стр 2")) none)]
        (cp ("что задали по математике")) = Except.ok (some (cp ("математика")))
  ∧ find_subject_in_message
        [(cp ("математика"), Entry.mk (cp ("стр 1")) none),
         (cp ("английский"), Entry.mk (cp ("стр 2")) none)]
        (cp ("что по англ")) = Except.ok (some (cp ("английский")))
  ∧ find_subject_in_message
        [(cp ("математика"), Entry.mk (cp ("стр 1")) none),
         (cp ("английский"), Entry.mk (cp ("стр 2")) none)]
        (cp ("что задали по физике")) = Except.ok none := by
  refine ⟨by decide, by decide, by decide⟩

/-- C2 counterexample: on the store holding only математика and the query
(что задали по матем), the first listed pattern matches (capturing the
block по матем) and none of its candidates resolves, yet the resolver does
not return none: it answers математика through the third pattern, so
candidates of later-listed patterns are consulted. -/
theorem c2_counterexample_later_patterns :
    find_subject_in_message [(cp ("математика"), Entry.mk (cp ("стр 1")) none)]
        (cp ("что задали по матем")) = Except.ok (some (cp ("математика")))
  ∧ reSearch pattern1 (pyStrip (pyLower (cp ("что задали по матем")))) =
      some (cp ("по матем"))
  ∧ patternStep
        (build_subject_alias_map [(cp ("математика"), Entry.mk (cp ("стр 1")) none)])
        (pyStrip (pyLower (cp ("что задали по матем")))) pattern1 = Except.ok none := by
  refine ⟨by decide, by decide, by decide⟩

/-- C2 amended: the resolver tries the listed patterns in order and falls
through to later patterns when an earlier matching pattern resolves no
candidate; it returns none when no pattern matches the lowered and stripped
text, and whenever it returns a key, some listed pattern produced that key
from its own candidate list. -/
theorem c2_patterns_fallthrough (board : List (List Nat × Entry)) (text : List Nat) :
    ((∀ p ∈ patterns, reSearch p (pyStrip (pyLower text)) = none) →
      find_subject_in_message board text = Except.ok none)
  ∧ (∀ k, find_subject_in_message board text = Except.ok (some k) →
      ∃ p, p ∈ patterns ∧
        patternStep (build_subject_alias_map board) (pyStrip (pyLower text)) p =
          Except.ok (some k)) := by
  constructor
  · intro h
    unfold find_subject_in_message
    split
    · rfl
    · exact findSubjectGo_none _ _ _ h
  · intro k h
    unfold find_subject_in_message at h
    split at h
    · simp at h
    · exact findSubjectGo_some _ _ _ _ h

/-- C2 amended witness: on the empty store and a text no pattern matches,
the resolver returns none. -/
theorem c2_patterns_fallthrough_witness :
    find_subject_in_message [] (cp ("привет")) = Except.ok none :=
  (c2_patterns_fallthrough [] (cp ("привет"))).1 (by decide)

/-- C3 counterexample: a text message carrying the recognized command
(slash del with an argument), sent by a user whose conversation state is
the subject-awaiting phase, is dispatched to the subject-input state
handler, not to the delete-command handler. -/
theorem c3_counterexample_state_over_command :
    dispatch [((42 : Int), ConvState.mk Phase.waitingForSubject none none)] 42
        (MsgContent.textMsg (cp ("/del предмет"))) = HandlerPath.subjectInputH
  ∧ HandlerPath.subjectInputH ≠ HandlerPath.delH := by
  refine ⟨by decide, by decide⟩

/-- C3 amended: events are classified by the handler registration order of
the source (sticker, msgu command, subject-input continuation, details
continuation, set, del, start, mute, restart, unmute commands, free-text
query): the msgu command always wins on text, any other text sent while the
user awaits a subject is consumed by the flow, and the del command is
dispatched as a command only when no conversation state is active. -/
theorem c3_registration_order (st : List (Int × ConvState)) (u : Int) (t : List Nat) :
    (extractCommand t = some (cp ("msgu")) →
      dispatch st u (MsgContent.textMsg t) = HandlerPath.msguH)
  ∧ (stateOf st u = some Phase.waitingForSubject →
      extractCommand t ≠ some (cp ("msgu")) →
      dispatch st u (MsgContent.textMsg t) = HandlerPath.subjectInputH)
  ∧ (stateOf st u = none → extractCommand t = some (cp ("del")) →
      dispatch st u (MsgContent.textMsg t) = HandlerPath.delH) := by
  refine ⟨fun h => ?_, fun hs hc => ?_, fun hs hc => ?_⟩
  · unfold dispatch
    dsimp only
    rw [if_pos h]
  · unfold dispatch
    dsimp only
    rw [if_neg hc, if_pos hs]
  · unfold dispatch
    dsimp only
    rw [hc, hs]
    have h1 : ¬ (some (cp ("del")) = some (cp ("msgu"))) := by decide
    have h2 : ¬ ((none : Option Phase) = some Phase.waitingForSubject) := by decide
    have h3 : ¬ ((none : Option Phase) = some Phase.waitingForHomeworkDetails) := by decide
    have h4 : ¬ (some (cp ("del")) = some (cp ("set"))) := by decide
    rw [if_neg h1, if_neg h2, if_neg h3, if_neg h4, if_pos rfl]

/-- C3 amended witness: with no active state, a del command text dispatches
to the delete handler. -/
theorem c3_registration_order_witness :
    dispatch [] 7 (MsgContent.textMsg (cp ("/del математика"))) = HandlerPath.delH :=
  (c3_registration_order [] 7 (cp ("/del математика"))).2.2 (by decide) (by decide)

/-- C4: in an allow-listed chat with a non-muted user, starting the add
flow, sending the text Math while awaiting the subject and the text p.10
while awaiting the details commits exactly one entry under the key math
whose text starts with (hence contains) p.10, and removes the conversation
state; sending whitespace-only text while awaiting the subject leaves the
state and the store unchanged with a validation reply. -/
theorem c4_guided_flow_commit :
    (handle_subject_input (handleCallbackSetInfo (BotState.mk [] [] []) 42 100)
        6066445210 42 (cp ("Math")) 101).2 = Reply.promptDetails (cp ("Math"))
  ∧ stateOf (handle_subject_input (handleCallbackSetInfo (BotState.mk [] [] []) 42 100)
        6066445210 42 (cp ("Math")) 101).1.states 42 =
      some Phase.waitingForHomeworkDetails
  ∧ (handle_homework_details_input
        (handle_subject_input (handleCallbackSetInfo (BotState.mk [] [] []) 42 100)
          6066445210 42 (cp ("Math")) 101).1
        6066445210 42 (HwContent.hwText (cp ("p.10"))) 0
        (UserRef.mk 42 (some (cp ("alice"))))).2 = Reply.saved (cp ("Math"))
  ∧ (handle_homework_details_input
        (handle_subject_input (handleCallbackSetInfo (BotState.mk [] [] []) 42 100)
          6066445210 42 (cp ("Math")) 101).1
        6066445210 42 (HwContent.hwText (cp ("p.10"))) 0
        (UserRef.mk 42 (some (cp ("alice"))))).1.board.map Prod.fst = [cp ("math")]
  ∧ (handle_homework_details_input
        (handle_subject_input (handleCallbackSetInfo (BotState.mk [] [] []) 42 100)
          6066445210 42 (cp ("Math")) 101).1
        6066445210 42 (HwContent.hwText (cp ("p.10"))) 0
        (UserRef.mk 42 (some (cp ("alice"))))).1.board.map
          (fun p => (cp ("p.10")).isPrefixOf p.2.text) = [true]
  ∧ dictFind (handle_homework_details_input
        (handle_subject_input (handleCallbackSetInfo (BotState.mk [] [] []) 42 100)
          6066445210 42 (cp ("Math")) 101).1
        6066445210 42 (HwContent.hwText (cp ("p.10"))) 0
        (UserRef.mk 42 (some (cp ("alice"))))).1.states 42 = (none : Option ConvState)
  ∧ handle_subject_input (handleCallbackSetInfo (BotState.mk [] [] []) 42 100)
        6066445210 42 (cp ("   ")) 102 =
      (handleCallbackSetInfo (BotState.mk [] [] []) 42 100, Reply.emptySubject) := by
  refine ⟨by decide, by decide, by decide, by decide, by decide, by decide, by decide⟩

/-- C5: for every store and parsed delete key, deleting an absent key
reports not found, leaves the whole state unchanged and does not persist;
deleting a present key reports the deletion, persists, removes exactly that
key and leaves every other key bound as before. -/
theorem c5_delete_contract (bs : BotState) (chatId userId : Int)
    (msgText tail : List Nat)
    (hmute : userId ∉ bs.muted)
    (hchat : ¬(chatId ∉ TELEGRAM_CHAT_ID ∧ chatId ≠ DEBUG_CHAT_ID))
    (hsplit : (pySplitOnce 32 msgText).2 = some tail)
    (htail : ¬ pyStrip tail = [])
    (hkey : ¬ delKey (pyStrip tail) = []) :
    (dictFind bs.board (delKey (pyStrip tail)) = none →
      delete_board bs chatId userId msgText =
        (bs, Reply.keyNotFound (delKey (pyStrip tail)), false))
  ∧ (∀ v, dictFind bs.board (delKey (pyStrip tail)) = some v →
      delete_board bs chatId userId msgText =
        ({ bs with board := dictRemove bs.board (delKey (pyStrip tail)) },
         Reply.deleted (delKey (pyStrip tail)), true)
      ∧ dictFind (dictRemove bs.board (delKey (pyStrip tail)))
          (delKey (pyStrip tail)) = none
      ∧ ∀ k2, ¬ k2 = delKey (pyStrip tail) →
          dictFind (dictRemove bs.board (delKey (pyStrip tail))) k2 =
            dictFind bs.board k2) := by
  have hstep : delete_board bs chatId userId msgText =
      (if (dictFind bs.board (delKey (pyStrip tail))).isSome then
        ({ bs with board := dictRemove bs.board (delKey (pyStrip tail)) },
         Reply.deleted (delKey (pyStrip tail)), true)
      else (bs, Reply.keyNotFound (delKey (pyStrip tail)), false)) := by
    unfold delete_board
    rw [if_neg hmute, if_neg hchat]
    dsimp only
    rw [hsplit]
    dsimp only
    rw [if_neg htail]
    rw [if_neg hkey]
  constructor
  · intro hnone
    rw [hstep, if_neg (by rw [hnone]; simp)]
  · intro v hv
    rw [hstep, if_pos (by rw [hv]; rfl)]
    exact ⟨rfl, dictFind_dictRemove_self _ _,
      fun k2 hk2 => dictFind_dictRemove_ne _ _ _ hk2⟩

/-- C5 witness: deleting an absent subject from a one-entry store reports
not found and changes nothing; the present key behaves per the theorem. -/
theorem c5_delete_contract_witness :
    delete_board (BotState.mk [(cp ("математика"), Entry.mk (cp ("стр 1")) none)] [] [])
        6066445210 42 (cp ("/del физика")) =
      (BotState.mk [(cp ("математика"), Entry.mk (cp ("стр 1")) none)] [] [],
       Reply.keyNotFound (cp ("физика")), false) :=
  (c5_delete_contract
      (BotState.mk [(cp ("математика"), Entry.mk (cp ("стр 1")) none)] [] [])
      6066445210 42 (cp ("/del физика")) (cp ("физика"))
      (by decide) (by decide) (by decide) (by decide) (by decide)).1 (by decide)

theorem inv_setCommit (bs : BotState) (subject value : List Nat)
    (fid : Option (List Nat)) (d : Nat) (user : UserRef)
    (hs : pyStrip subject = subject) (h : StoreInv bs) :
    StoreInv (setCommit bs subject value fid d user).1 := by
  unfold setCommit
  split_ifs with h1 h2
  · exact h
  · exact h
  · exact inv_save bs subject value fid d user h1 hs h

theorem inv_setParse (bs : BotState) (commandText : List Nat)
    (fid : Option (List Nat)) (d : Nat) (user : UserRef) (h : StoreInv bs) :
    StoreInv (setParse bs commandText fid d user).1 := by
  unfold setParse
  split_ifs with h1
  · dsimp only
    cases hsp : (pySplitOnce 32 commandText).2 with
    | none => exact h
    | some tail =>
      dsimp only
      split_ifs with h2
      · exact h
      · split
        · split_ifs with h3
          · exact inv_setCommit _ _ _ _ _ _ (pyStrip_idem _) h
          · exact h
        · exact inv_setCommit _ _ _ _ _ _ (pyStrip_idem _) h
  · exact h

/-- C6: the Subject Store key invariant (lower-case, trimmed, non-empty
keys) together with the pending-subject invariant of the conversation
states is preserved by every mutating operation: starting the add flow,
the subject step and the details step of the guided flow, the set command
and the delete command. -/
theorem c6_store_key_invariant (bs : BotState) (chatId userId : Int)
    (text : List Nat) (pid : Nat) (content : HwContent) (sc : SetContent)
    (msgDate : Nat) (user : UserRef) (delText : List Nat) (h : StoreInv bs) :
    StoreInv (handleCallbackSetInfo bs userId pid)
  ∧ StoreInv (handle_subject_input bs chatId userId text pid).1
  ∧ StoreInv (handle_homework_details_input bs chatId userId content msgDate user).1
  ∧ StoreInv (set_homework bs chatId userId sc msgDate user).1
  ∧ StoreInv (delete_board bs chatId userId delText).1 := by
  refine ⟨?_, ?_, ?_, ?_, ?_⟩
  · exact inv_states_insert { bs with states := dictRemove bs.states userId }
      userId (ConvState.mk Phase.waitingForSubject none (some pid))
      (inv_states_remove bs userId h) trivial
  · unfold handle_subject_input
    dsimp only
    split_ifs with h1 h2 h3
    · exact inv_states_remove bs userId h
    · exact inv_states_remove bs userId h
    · exact h
    · exact inv_states_insert bs userId _ h ⟨h3, pyStrip_idem text⟩
  · unfold handle_homework_details_input
    split_ifs with h1 h2
    · exact inv_states_remove bs userId h
    · exact inv_states_remove bs userId h
    · cases hsub : (dictFind bs.states userId).bind (fun st => st.subject) with
      | none => exact inv_states_remove bs userId h
      | some subject =>
        obtain ⟨st, hst, hsj⟩ := Option.bind_eq_some.mp hsub
        obtain ⟨a, ham⟩ := dictFind_some_mem hst
        have hsok : subjOk st.subject := h.2 (a, st) ham
        rw [hsj] at hsok
        dsimp only
        split_ifs with h3 h4
        · exact h
        · exact inv_states_remove _ userId
            (inv_save bs subject _ _ msgDate user hsok.1 hsok.2 h)
        · exact inv_states_remove _ userId
            (inv_save bs subject _ _ msgDate user hsok.1 hsok.2 h)
  · unfold set_homework
    split_ifs with h1 h2
    · exact h
    · exact h
    · cases sc with
      | scPhoto cap fid =>
        cases cap with
        | some c =>
          dsimp only
          split_ifs with h3
          · exact inv_setParse bs (pyStrip c) fid msgDate user h
          · exact h
        | none => exact h
      | scText t => exact inv_setParse bs (pyStrip t) none msgDate user h
  · unfold delete_board
    split_ifs with h1 h2
    · exact h
    · exact h
    · dsimp only
      cases hsp : (pySplitOnce 32 delText).2 with
      | none => exact h
      | some tail =>
        dsimp only
        split_ifs with h3 h4 h5
        · exact h
        · exact h
        · exact inv_board_remove bs _ h
        · exact h

/-- C6 witness: the invariant holds after each operation applied to a
concrete valid state. -/
theorem c6_store_key_invariant_witness :
    StoreInv (handleCallbackSetInfo (BotState.mk [] [] []) 42 1)
  ∧ StoreInv (handle_subject_input (BotState.mk [] [] []) 6066445210 42
      (cp ("Математика")) 1).1
  ∧ StoreInv (handle_homework_details_input (BotState.mk [] [] []) 6066445210 42
      (HwContent.hwText (cp ("стр 5"))) 0 (UserRef.mk 42 none)).1
  ∧ StoreInv (set_homework (BotState.mk [] [] []) 6066445210 42
      (SetContent.scText (cp ("/set физика упр 3"))) 0 (UserRef.mk 42 none)).1
  ∧ StoreInv (delete_board (BotState.mk [] [] []) 6066445210 42 (cp ("/del физика"))).1 :=
  c6_store_key_invariant (BotState.mk [] [] []) 6066445210 42 (cp ("Математика")) 1
    (HwContent.hwText (cp ("стр 5"))) (SetContent.scText (cp ("/set физика упр 3"))) 0
    (UserRef.mk 42 none) (cp ("/del физика")) (by decide)

/-- C7: for every message content, a write attempt (subject step, details
step, set command or delete command) from a chat outside the allow-list and
distinct from the debug chat leaves the board unchanged and is answered
with a rejection (the wrong-chat report, or the mute report in the two
command handlers that test the mute set first). -/
theorem c7_chat_allowlist_rejection (bs : BotState) (chatId userId : Int)
    (text : List Nat) (pid : Nat) (content : HwContent) (sc : SetContent)
    (msgDate : Nat) (user : UserRef) (delText : List Nat)
    (h : chatId ∉ TELEGRAM_CHAT_ID ∧ chatId ≠ DEBUG_CHAT_ID) :
    ((handle_subject_input bs chatId userId text pid).1.board = bs.board
      ∧ (handle_subject_input bs chatId userId text pid).2 = Reply.deniedChat)
  ∧ ((handle_homework_details_input bs chatId userId content msgDate user).1.board
        = bs.board
      ∧ (handle_homework_details_input bs chatId userId content msgDate user).2
        = Reply.deniedChat)
  ∧ ((set_homework bs chatId userId sc msgDate user).1.board = bs.board
      ∧ ((set_homework bs chatId userId sc msgDate user).2 = Reply.deniedChat
        ∨ (set_homework bs chatId userId sc msgDate user).2 = Reply.deniedMuted))
  ∧ ((delete_board bs chatId userId delText).1.board = bs.board
      ∧ ((delete_board bs chatId userId delText).2.1 = Reply.deniedChat
        ∨ (delete_board bs chatId userId delText).2.1 = Reply.deniedMuted)) := by
  refine ⟨?_, ?_, ?_, ?_⟩
  · unfold handle_subject_input
    rw [if_pos h]
    exact ⟨rfl, rfl⟩
  · unfold handle_homework_details_input
    rw [if_pos h]
    exact ⟨rfl, rfl⟩
  · unfold set_homework
    by_cases hm : userId ∈ bs.muted
    · rw [if_pos hm]
      exact ⟨rfl, Or.inr rfl⟩
    · rw [if_neg hm, if_pos h]
      exact ⟨rfl, Or.inl rfl⟩
  · unfold delete_board
    by_cases hm : userId ∈ bs.muted
    · rw [if_pos hm]
      exact ⟨rfl, Or.inr rfl⟩
    · rw [if_neg hm, if_pos h]
      exact ⟨rfl, Or.inl rfl⟩

/-- C7 witness: from an unconfigured chat the four write paths reject and
keep the concrete board. -/
theorem c7_chat_allowlist_rejection_witness :
    ((handle_subject_input (BotState.mk [] [] []) 0 42 (cp ("Математика")) 1).1.board
        = (BotState.mk [] [] []).board
      ∧ (handle_subject_input (BotState.mk [] [] []) 0 42 (cp ("Математика")) 1).2
        = Reply.deniedChat)
  ∧ ((handle_homework_details_input (BotState.mk [] [] []) 0 42
        (HwContent.hwText (cp ("стр 5"))) 0 (UserRef.mk 42 none)).1.board
        = (BotState.mk [] [] []).board
      ∧ (handle_homework_details_input (BotState.mk [] [] []) 0 42
        (HwContent.hwText (cp ("стр 5"))) 0 (UserRef.mk 42 none)).2 = Reply.deniedChat)
  ∧ ((set_homework (BotState.mk [] [] []) 0 42
        (SetContent.scText (cp ("/set физика упр 3"))) 0 (UserRef.mk 42 none)).1.board
        = (BotState.mk [] [] []).board
      ∧ ((set_homework (BotState.mk [] [] []) 0 42
          (SetContent.scText (cp ("/set физика упр 3"))) 0 (UserRef.mk 42 none)).2
            = Reply.deniedChat
        ∨ (set_homework (BotState.mk [] [] []) 0 42
          (SetContent.scText (cp ("/set физика упр 3"))) 0 (UserRef.mk 42 none)).2
            = Reply.deniedMuted))
  ∧ ((delete_board (BotState.mk [] [] []) 0 42 (cp ("/del физика"))).1.board
        = (BotState.mk [] [] []).board
      ∧ ((delete_board (BotState.mk [] [] []) 0 42 (cp ("/del физика"))).2.1
            = Reply.deniedChat
        ∨ (delete_board (BotState.mk [] [] []) 0 42 (cp ("/del физика"))).2.1
            = Reply.deniedMuted)) :=
  c7_chat_allowlist_rejection (BotState.mk [] [] []) 0 42 (cp ("Математика")) 1
    (HwContent.hwText (cp ("стр 5"))) (SetContent.scText (cp ("/set физика упр 3"))) 0
    (UserRef.mk 42 none) (cp ("/del физика")) (by decide)

/-- C8: for an administrator caller and a parsed numeric argument, muting
adds the user to the set and reports success, muting again reports success
and leaves the set exactly as after the first mute (the user stays muted),
and unmuting a user not in the set reports success and leaves the set
unchanged. -/
theorem c8_mute_unmute_idempotent (muted : List Int) (caller : Int)
    (tM tU argM argU : List Nat) (uid : Int)
    (hadmin : caller ∈ ADMIN_ID)
    (hsM : (pySplitOnce 32 tM).2 = some argM) (hpM : pyParseInt argM = some uid)
    (hsU : (pySplitOnce 32 tU).2 = some argU) (hpU : pyParseInt argU = some uid) :
    mute_user muted caller tM = (setAdd muted uid, Reply.mutedOk uid)
  ∧ uid ∈ (mute_user muted caller tM).1
  ∧ mute_user (mute_user muted caller tM).1 caller tM
      = ((mute_user muted caller tM).1, Reply.mutedOk uid)
  ∧ (uid ∉ muted → unmute_user muted caller tU = (muted, Reply.unmutedOk uid)) := by
  have hna : ¬ caller ∉ ADMIN_ID := fun hc => hc hadmin
  have hmem : uid ∈ setAdd muted uid := by
    unfold setAdd
    split_ifs with ha
    · exact ha
    · simp
  have hmu : ∀ m : List Int, mute_user m caller tM = (setAdd m uid, Reply.mutedOk uid) := by
    intro m
    unfold mute_user
    rw [if_neg hna, hsM]
    dsimp only
    rw [hpM]
  have hadd : setAdd (setAdd muted uid) uid = setAdd muted uid := by
    show (if uid ∈ setAdd muted uid then setAdd muted uid
      else setAdd muted uid ++ [uid]) = setAdd muted uid
    rw [if_pos hmem]
  refine ⟨hmu muted, ?_, ?_, ?_⟩
  · rw [hmu muted]
    exact hmem
  · rw [hmu muted, hmu (setAdd muted uid), hadd]
  · intro hnm
    unfold unmute_user
    rw [if_neg hna, hsU]
    dsimp only
    rw [hpU]
    dsimp only
    have hf : muted.filter (fun x => !(x == uid)) = muted :=
      List.filter_eq_self.mpr (fun a ha => by
        simp only [Bool.not_eq_true', beq_eq_false_iff_ne, ne_eq]
        exact fun he => hnm (he ▸ ha))
    rw [hf]

/-- C8 witness: muting the user 5 twice from the administrator account, and
unmuting the user 5 on the empty set. -/
theorem c8_mute_unmute_idempotent_witness :
    mute_user [] 6066445210 (cp ("/mute 5")) = (setAdd [] 5, Reply.mutedOk 5)
  ∧ (5 : Int) ∈ (mute_user [] 6066445210 (cp ("/mute 5"))).1
  ∧ mute_user (mute_user [] 6066445210 (cp ("/mute 5"))).1 6066445210 (cp ("/mute 5"))
      = ((mute_user [] 6066445210 (cp ("/mute 5"))).1, Reply.mutedOk 5)
  ∧ unmute_user [] 6066445210 (cp ("/unmute 5")) = ([], Reply.unmutedOk 5) := by
  have h := c8_mute_unmute_idempotent [] 6066445210 (cp ("/mute 5")) (cp ("/unmute 5"))
    (cp ("5")) (cp ("5")) 5 (by decide) (by decide) (by decide) (by decide) (by decide)
  exact ⟨h.1, h.2.1, h.2.2.1, h.2.2.2 (by decide)⟩

/-- C9 counterexample: on a store whose key Math is not lower-case, the
resolver answers the lowered string math, which is not a key of the store:
the alias map values are the lowered keys, not the keys themselves. -/
theorem c9_counterexample_uppercase_store_key :
    find_subject_in_message [(cp ("Math"), Entry.mk (cp ("стр 1")) none)]
        (cp ("что по math")) = Except.ok (some (cp ("math")))
  ∧ dictFind [(cp ("Math"), Entry.mk (cp ("стр 1")) none)] (cp ("math"))
      = (none : Option Entry) := by
  refine ⟨by decide, by decide⟩

/-- C9 amended: on every store whose keys are fixed by lower-casing (as the
writers of the store guarantee), whenever the resolver answers a key, that
key is present in the store mapping. -/
theorem c9_resolver_returns_present_key (board : List (List Nat × Entry))
    (text k : List Nat) (hlow : ∀ q ∈ board, pyLower q.1 = q.1)
    (hres : find_subject_in_message board text = Except.ok (some k)) :
    (dictFind board k).isSome = true := by
  unfold find_subject_in_message at hres
  split at hres
  · simp at hres
  · obtain ⟨p, _, hstep⟩ := findSubjectGo_some _ _ _ _ hres
    obtain ⟨a, ham⟩ := patternStep_some_mem _ _ _ _ hstep
    obtain ⟨q, hq, _, hqe⟩ := mem_build_alias board (a, k) ham
    have hk : k = q.1 := (show k = pyLower q.1 from hqe).trans (hlow q hq)
    exact dictFind_isSome_of_mem (show (k, q.2) ∈ board from hk ▸ hq)

/-- C9 amended witness: on a lower-case store the resolved key is present. -/
theorem c9_resolver_returns_present_key_witness :
    (dictFind [(cp ("математика"), Entry.mk (cp ("стр 1")) none)]
      (cp ("математика"))).isSome = true :=
  c9_resolver_returns_present_key
    [(cp ("математика"), Entry.mk (cp ("стр 1")) none)]
    (cp ("что по математике")) (cp ("математика")) (by decide) (by decide)

/-- C10: the implicit free-text query handler reads neither the mute set
nor the sender identity: for a fixed board and message text its answer is
identical for any two mute sets and any two senders, so mute gates only the
write commands. -/
theorem c10_general_query_ignores_mute (board : List (List Nat × Entry))
    (m1 m2 : List Int) (u1 u2 : Int) (text : List Nat) :
    handle_general_queries board m1 u1 text = handle_general_queries board m2 u2 text :=
  rfl
